import Mathlib

/-!
Verification of the restaurant-booking-system specification against the code.

The repository ships the React/TypeScript frontend; the FastAPI backend that
implements the reservation allocation core (Slot Calendar, Table Registry,
Availability Resolver, Reservation Ledger, Booking Facade) is not present in
the source tree (only its README and Pipfile are).  Definitions for those
components are therefore modelled from the specification text and are marked
as such in their doc comments.  Frontend logic (the booking form schema, the
axios response interceptor, the Table records the frontend declares) is
embedded directly from the TypeScript source.
-/

/-- Modelled from the spec: the key of an Assignment, `(table_id, time_slot_id,
date)`, from the data model of the missing Reservation Ledger backend.  Dates
are modelled as integers (days). -/
structure Key where
  table_id : Nat
  time_slot_id : Nat
  date : Int
deriving DecidableEq

/-- Modelled from the spec: the closed tagged variant of Assignment kinds,
`kind ∈ {Booking, AdminReserve}`, from the missing Reservation Ledger. -/
inductive Kind where
  | Booking
  | AdminReserve
deriving DecidableEq

/-- Modelled from the spec: Assignment state; `Active → Cancelled` is the only
transition, and `Cancelled` is terminal. -/
inductive AStatus where
  | Active
  | Cancelled
deriving DecidableEq

/-- Modelled from the spec: the Assignment entity of the missing Reservation
Ledger: `{table_id, time_slot_id, date, kind, party_size, holder_ref,
created_at}` with a status.  `created_at` is subsumed by the synthetic `id`
drawn from the ledger's counter; `holder_ref` is a user identifier or `none`
for admin holds. -/
structure Assignment where
  id : Nat
  key : Key
  kind : Kind
  party_size : Nat
  holder_ref : Option Nat
  status : AStatus
deriving DecidableEq

/-- Modelled from the spec: the durable store of the missing Reservation
Ledger — all Assignment rows ever inserted (cancelled rows are retained for
history) plus the id counter for new rows. -/
structure Ledger where
  assignments : List Assignment
  nextId : Nat
deriving DecidableEq

/-- Modelled from the spec: the business-error taxonomy of the missing
backend (§7 of the spec).  The error for deleting a time slot with active
holds is not named by the spec; `SlotHasActiveHolds` is used here. -/
inductive LErr where
  | SlotTaken
  | TableNotEligible
  | NotAuthorized
  | AlreadyCancelled
  | NotFound
  | DuplicateTableNumber
  | DuplicateSlot
  | InvalidSlotTime
  | TableHasActiveHolds
  | SlotHasActiveHolds
deriving DecidableEq

/-- Whether an assignment is a non-cancelled (Active) assignment for key `k`. -/
def activeAt (k : Key) (a : Assignment) : Bool :=
  decide (a.key = k ∧ a.status = AStatus.Active)

/-- Whether some non-cancelled assignment holds key `k` in ledger `L`. -/
def hasActive (L : Ledger) (k : Key) : Bool :=
  L.assignments.any (activeAt k)

/-- Modelled from the spec: `tryAssign` of the missing Reservation Ledger —
an insert-or-fail against the uniqueness constraint scoped to Active rows,
with the constraint violation translated to `SlotTaken`; capacity adequacy
(`party_size ≤ capacity` of the target table, read inside the same
transaction) is re-validated as well. -/
def tryAssign (L : Ledger) (k : Key) (kind : Kind) (ps : Nat)
    (holder : Option Nat) (cap : Nat) : Except LErr (Ledger × Assignment) :=
  if hasActive L k then .error .SlotTaken
  else if cap < ps then .error .TableNotEligible
  else
    let a : Assignment := ⟨L.nextId, k, kind, ps, holder, .Active⟩
    .ok (⟨a :: L.assignments, L.nextId + 1⟩, a)

/-- The ledger after a `tryAssign` attempt: the new ledger on success, the
old ledger unchanged on failure (a failed transaction commits nothing). -/
def assignStep (L : Ledger) (k : Key) (kind : Kind) (ps : Nat)
    (holder : Option Nat) (cap : Nat) : Ledger :=
  match tryAssign L k kind ps holder cap with
  | .ok p => p.1
  | .error _ => L

/-- Status update applied by a successful cancellation: the assignment with
the cancelled id becomes `Cancelled`, every other row is untouched. -/
def cancelFlip (aid : Nat) (b : Assignment) : Assignment :=
  if b.id = aid then { b with status := AStatus.Cancelled } else b

/-- Modelled from the spec: `cancel` of the missing Reservation Ledger —
transitions Active → Cancelled only; fails with `AlreadyCancelled` if the
assignment is already terminal and with `NotAuthorized` if the requester is
neither the holder nor the restaurant's owner.  `restOwner` is the id of the
owning restaurant's owner, resolved by the (external) identity collaborator. -/
def cancel (L : Ledger) (aid : Nat) (requester : Nat) (restOwner : Nat) :
    Except LErr Ledger :=
  match L.assignments.find? (fun a => decide (a.id = aid)) with
  | none => .error .NotFound
  | some a =>
    if a.status = AStatus.Cancelled then .error .AlreadyCancelled
    else if requester = restOwner ∨ a.holder_ref = some requester then
      .ok ⟨L.assignments.map (cancelFlip aid), L.nextId⟩
    else .error .NotAuthorized

/-- The ledger after a `cancel` attempt; unchanged on failure. -/
def cancelStep (L : Ledger) (aid : Nat) (requester : Nat) (restOwner : Nat) :
    Ledger :=
  match cancel L aid requester restOwner with
  | .ok L2 => L2
  | .error _ => L

/-- Modelled from the spec: the Table entity of the missing backend's Table
Registry, `{id, restaurant_id, table_number, capacity}`. -/
structure Table where
  id : Nat
  restaurant_id : Nat
  table_number : Nat
  capacity : Nat
deriving DecidableEq

/-- Modelled from the spec: the TimeSlot entity of the missing backend's Slot
Calendar, `{id, restaurant_id, date, start_time, end_time, is_active}`, with
times in minutes. -/
structure TimeSlot where
  id : Nat
  restaurant_id : Nat
  date : Int
  start_time : Nat
  end_time : Nat
  is_active : Bool
deriving DecidableEq

/-- Modelled from the spec: `addTable` of the missing Table Registry — fails
with `DuplicateTableNumber` if the number is already used in the restaurant.
`tid` is the id the store assigns to the new row. -/
def addTable (tables : List Table) (rid number cap tid : Nat) :
    Except LErr (List Table) :=
  if tables.any (fun t => decide (t.restaurant_id = rid ∧ t.table_number = number))
  then .error .DuplicateTableNumber
  else .ok (⟨tid, rid, number, cap⟩ :: tables)

/-- Modelled from the spec: `updateTable` of the missing Table Registry —
edits number and capacity, keeping the per-restaurant number unique. -/
def updateTable (tables : List Table) (tid number cap : Nat) :
    Except LErr (List Table) :=
  if tables.any (fun t => decide (¬t.id = tid ∧ t.table_number = number ∧
      ∃ u ∈ tables, u.id = tid ∧ u.restaurant_id = t.restaurant_id))
  then .error .DuplicateTableNumber
  else .ok (tables.map (fun t =>
    if t.id = tid then { t with table_number := number, capacity := cap } else t))

/-- Whether some non-cancelled assignment references table `tid` for a
present-or-future date (relative to `today`). -/
def hasBlockingHold (L : Ledger) (tid : Nat) (today : Int) : Bool :=
  L.assignments.any (fun a =>
    decide (a.key.table_id = tid ∧ ¬a.status = AStatus.Cancelled ∧ today ≤ a.key.date))

/-- Modelled from the spec: `removeTable` of the missing Table Registry —
fails with `TableHasActiveHolds` if any non-cancelled Assignment references
the table for a present-or-future date; past assignments do not block
removal.  On success the table is removed and its assignments are cascaded
(an Assignment does not outlive the Table it references). -/
def removeTable (tables : List Table) (L : Ledger) (tid : Nat) (today : Int) :
    Except LErr (List Table × Ledger) :=
  if hasBlockingHold L tid today then .error .TableHasActiveHolds
  else .ok (tables.filter (fun t => !decide (t.id = tid)),
    ⟨L.assignments.filter (fun a => !decide (a.key.table_id = tid)), L.nextId⟩)

/-- The (tables, ledger) state after a `removeTable` attempt; unchanged on
failure. -/
def removeTableStep (tables : List Table) (L : Ledger) (tid : Nat)
    (today : Int) : List Table × Ledger :=
  match removeTable tables L tid today with
  | .ok p => p
  | .error _ => (tables, L)

/-- Modelled from the spec: `createSlot` of the missing Slot Calendar —
fails with `InvalidSlotTime` if the start time is outside restaurant hours or
the derived end time (start + fixed duration) exceeds closing time, and with
`DuplicateSlot` if `(restaurant, date, start_time)` already exists. -/
def createSlot (slots : List TimeSlot) (sid rid : Nat) (date : Int)
    (startT openT closeT dur : Nat) : Except LErr (List TimeSlot) :=
  if startT < openT ∨ closeT < startT + dur then .error .InvalidSlotTime
  else if slots.any (fun s =>
      decide (s.restaurant_id = rid ∧ s.date = date ∧ s.start_time = startT))
  then .error .DuplicateSlot
  else .ok (⟨sid, rid, date, startT, startT + dur, true⟩ :: slots)

/-- Modelled from the spec: slot deactivation of the missing Slot Calendar —
a logical flag flip, never deletion. -/
def deactivateSlot (slots : List TimeSlot) (sid : Nat) : List TimeSlot :=
  slots.map (fun s => if s.id = sid then { s with is_active := false } else s)

/-- Modelled from the spec: time-slot deletion of the missing backend —
allowed only if the slot has no active bookings or admin holds; on success
its assignments are cascaded. -/
def removeSlot (slots : List TimeSlot) (L : Ledger) (sid : Nat) :
    Except LErr (List TimeSlot × Ledger) :=
  if L.assignments.any (fun a =>
      decide (a.key.time_slot_id = sid ∧ ¬a.status = AStatus.Cancelled))
  then .error .SlotHasActiveHolds
  else .ok (slots.filter (fun s => !decide (s.id = sid)),
    ⟨L.assignments.filter (fun a => !decide (a.key.time_slot_id = sid)), L.nextId⟩)

/-- The whole mutable state of the modelled core: table registry, slot
calendar and reservation ledger. -/
structure Sys where
  tables : List Table
  slots : List TimeSlot
  ledger : Ledger
deriving DecidableEq

/-- The initial, empty state. -/
def sys0 : Sys := ⟨[], [], ⟨[], 0⟩⟩

/-- One operation of the modelled core: `tryAssign` with either kind,
`cancel`, and slot/table management. -/
inductive Op where
  | assign (k : Key) (kind : Kind) (ps : Nat) (holder : Option Nat) (cap : Nat)
  | docancel (aid requester restOwner : Nat)
  | addTbl (rid number cap tid : Nat)
  | editTbl (tid number cap : Nat)
  | removeTbl (tid : Nat) (today : Int)
  | addSlot (sid rid : Nat) (date : Int) (startT openT closeT dur : Nat)
  | deactivate (sid : Nat)
  | removeSlt (sid : Nat)

/-- Apply one operation; a failed operation leaves the state unchanged. -/
def applyOp (s : Sys) : Op → Sys
  | .assign k kind ps holder cap =>
    { s with ledger := assignStep s.ledger k kind ps holder cap }
  | .docancel aid requester restOwner =>
    { s with ledger := cancelStep s.ledger aid requester restOwner }
  | .addTbl rid number cap tid =>
    match addTable s.tables rid number cap tid with
    | .ok ts => { s with tables := ts }
    | .error _ => s
  | .editTbl tid number cap =>
    match updateTable s.tables tid number cap with
    | .ok ts => { s with tables := ts }
    | .error _ => s
  | .removeTbl tid today =>
    let p := removeTableStep s.tables s.ledger tid today
    { s with tables := p.1, ledger := p.2 }
  | .addSlot sid rid date startT openT closeT dur =>
    match createSlot s.slots sid rid date startT openT closeT dur with
    | .ok ss => { s with slots := ss }
    | .error _ => s
  | .deactivate sid => { s with slots := deactivateSlot s.slots sid }
  | .removeSlt sid =>
    match removeSlot s.slots s.ledger sid with
    | .ok p => { s with slots := p.1, ledger := p.2 }
    | .error _ => s

/-- Run a sequence of operations from a state. -/
def runOps (s : Sys) (ops : List Op) : Sys := ops.foldl applyOp s

/-- The core exclusivity invariant: for every `(table, slot, date)` key at
most one non-cancelled Assignment exists. -/
def ExclusiveActive (L : Ledger) : Prop :=
  ∀ k : Key, L.assignments.countP (activeAt k) ≤ 1

/-- Modelled from the spec: the result ordering of the missing Availability
Resolver — ascending capacity, then table_number (smallest adequate table
first). -/
def availOrder (a b : Table) : Prop :=
  a.capacity < b.capacity ∨ (a.capacity = b.capacity ∧ a.table_number ≤ b.table_number)

instance : DecidableRel availOrder := fun a b =>
  inferInstanceAs (Decidable (a.capacity < b.capacity ∨
    (a.capacity = b.capacity ∧ a.table_number ≤ b.table_number)))

instance : IsTotal Table availOrder where
  total a b := by
    unfold availOrder
    rcases Nat.lt_trichotomy a.capacity b.capacity with h | h | h
    · exact Or.inl (Or.inl h)
    · rcases Nat.le_total a.table_number b.table_number with h2 | h2
      · exact Or.inl (Or.inr ⟨h, h2⟩)
      · exact Or.inr (Or.inr ⟨h.symm, h2⟩)
    · exact Or.inr (Or.inl h)

instance : IsTrans Table availOrder where
  trans a b c hab hbc := by
    unfold availOrder at *
    rcases hab with h1 | ⟨h1, h1n⟩
    · rcases hbc with h2 | ⟨h2, _⟩
      · exact Or.inl (Nat.lt_trans h1 h2)
      · exact Or.inl (h2 ▸ h1)
    · rcases hbc with h2 | ⟨h2, h2n⟩
      · exact Or.inl (h1 ▸ h2)
      · exact Or.inr ⟨h1.trans h2, h1n.trans h2n⟩

/-- Whether table `t` is a candidate for the availability query: it belongs
to the restaurant, seats the party, and has no non-cancelled assignment for
`(table, slot, date)`. -/
def availPred (L : Ledger) (rid slot : Nat) (date : Int) (ps : Nat)
    (t : Table) : Bool :=
  decide (t.restaurant_id = rid ∧ ps ≤ t.capacity ∧
    hasActive L ⟨t.id, slot, date⟩ = false)

/-- Modelled from the spec: `findAvailable` of the missing Availability
Resolver — enumerate the restaurant's tables with capacity ≥ party_size,
subtract tables with a non-cancelled Assignment for `(table, slot, date)`,
and order by ascending capacity then table_number. -/
def findAvailable (tables : List Table) (L : Ledger) (rid slot : Nat)
    (date : Int) (ps : Nat) : List Table :=
  List.insertionSort availOrder (tables.filter (availPred L rid slot date ps))

/-- One request of a burst of `tryAssign` calls racing on one key. -/
structure AssignReq where
  kind : Kind
  ps : Nat
  holder : Option Nat
deriving DecidableEq

/-- Modelled from the spec: a burst of `tryAssign` calls on one key, applied
in the total commit order the durable store serialises them into (§5 of the
spec: transitions for a fixed key are totally ordered by the storage engine's
transaction commit order).  Returns the final ledger and each call's result. -/
def runAssigns (cap : Nat) (k : Key) :
    Ledger → List AssignReq → Ledger × List (Except LErr Assignment)
  | L, [] => (L, [])
  | L, r :: rs =>
    match tryAssign L k r.kind r.ps r.holder cap with
    | .ok p =>
      let q := runAssigns cap k p.1 rs
      (q.1, .ok p.2 :: q.2)
    | .error e =>
      let q := runAssigns cap k L rs
      (q.1, .error e :: q.2)

/-- Whether a `tryAssign` result is a success. -/
def isOkE : Except LErr Assignment → Bool
  | .ok _ => true
  | .error _ => false

/-- Table record as the frontend declares it on the restaurant-management
page (src/unnamed/part_005, interface Table): `{id, table_number, capacity,
time_slot_id}`. -/
structure MgmtTable where
  id : String
  table_number : String
  capacity : Int
  time_slot_id : String
deriving DecidableEq

/-- Table record as the frontend declares it on the per-time-slot tables page
(src/unnamed/part_007, interface Table): the same fields plus the derived
per-slot status view. -/
structure SlotViewTable where
  id : String
  table_number : String
  capacity : Int
  time_slot_id : String
  is_booked : Option Bool
  is_admin_reserved : Option Bool
deriving DecidableEq

/-- Booking form values of the restaurant-details page (src/unnamed/part_004,
bookingSchema): a date string and a guest count.  The guest count is the
form's numeric input (`valueAsNumber`), modelled as an integer. -/
structure BookingFormData where
  date : String
  guests : Int
deriving DecidableEq

/-- Validation of the booking form, from src/unnamed/part_004: zod
`z.object({ date: z.string(), guests: z.number().min(1, ...).max(20, ...) })`.
`min`/`max` are inclusive; `min` is checked before `max`. -/
def bookingSchemaCheck (f : BookingFormData) : Except String BookingFormData :=
  if f.guests < 1 then .error ("At least 1 guest required")
  else if 20 < f.guests then .error ("Maximum 20 guests allowed")
  else .ok f

/-- Component state of the restaurant-details page that drives the
availability query: `selectedDate` and `guestCount`
(src/unnamed/part_004, useState hooks). -/
structure BookingPageState where
  selectedDate : String
  guestCount : Int
deriving DecidableEq

/-- The submit pipeline of the booking form (src/unnamed/part_004,
`handleSubmit(onSubmit)`): react-hook-form runs `onSubmit` — which copies the
form values into the query-driving state — only when the zod resolver
accepts the values; on a validation error the state is left unchanged and no
query is issued with the rejected values. -/
def submitBookingForm (st : BookingPageState) (f : BookingFormData) :
    BookingPageState :=
  match bookingSchemaCheck f with
  | .ok d => ⟨d.date, d.guests⟩
  | .error _ => st

/-- Whether the character list `pat` is a prefix of `l`. -/
def startsWithChars : List Char → List Char → Bool
  | [], _ => true
  | _ :: _, [] => false
  | c :: cs, d :: ds => c == d && startsWithChars cs ds

/-- Whether the character list `pat` occurs contiguously in `l`. -/
def containsChars (pat : List Char) : List Char → Bool
  | [] => startsWithChars pat []
  | d :: ds => startsWithChars pat (d :: ds) || containsChars pat ds

/-- Substring containment on strings, the model of JavaScript
`String.prototype.includes`. -/
def strContains (s pat : String) : Bool := containsChars pat.data s.data

/-- Axios request config as the interceptor in src/unnamed/part_003 uses it:
the request URL (possibly absent) and the `_retry` marker. -/
structure ReqConfig where
  url : Option String
  retryFlag : Bool
deriving DecidableEq

/-- Axios error as the interceptor reads it: `error.response?.status` and
`error.config`. -/
structure ApiError where
  status : Option Nat
  config : ReqConfig
deriving DecidableEq

/-- The two auth roles whose stored auth the interceptor can clear. -/
inductive AuthRole where
  | user
  | owner
deriving DecidableEq

/-- Observable outcome of the response interceptor on an error:
replay the original request (after a successful refresh against the given
endpoint), clear the given role's stored auth and propagate the original
error (after a failed refresh against the given endpoint), or propagate the
error with no refresh and no replay. -/
inductive InterceptOutcome where
  | replay (cfg : ReqConfig) (refreshEndpoint : String)
  | clearAndReject (role : AuthRole) (refreshEndpoint : String) (err : ApiError)
  | reject (err : ApiError)
deriving DecidableEq

/-- `originalRequest.url?.includes("/owner")` from src/unnamed/part_003. -/
def isOwnerRoute (cfg : ReqConfig) : Bool :=
  match cfg.url with
  | some u => strContains u ("/owner")
  | none => false

/-- The response-error interceptor of src/unnamed/part_003: on a 401 whose
request is not marked `_retry`, mark it, refresh against the owner endpoint
iff the URL contains "/owner" (else the user endpoint), and replay the
original request once if the refresh succeeded; if the refresh failed, clear
the stored auth for that role and rethrow the original error.  Anything else
is rejected unchanged.  `refreshOk` is whether the refresh call succeeds. -/
def onResponseError (e : ApiError) (refreshOk : Bool) : InterceptOutcome :=
  if e.status = some 401 ∧ e.config.retryFlag = false then
    let endpoint := if isOwnerRoute e.config
      then ("/auth/owner/refresh") else ("/auth/user/refresh")
    if refreshOk then .replay { e.config with retryFlag := true } endpoint
    else .clearAndReject (if isOwnerRoute e.config then .owner else .user) endpoint e
  else .reject e

theorem activeAt_iff {k : Key} {a : Assignment} :
    activeAt k a = true ↔ a.key = k ∧ a.status = AStatus.Active := by
  simp [activeAt]

theorem countP_activeAt_eq_zero {L : Ledger} {k : Key}
    (h : hasActive L k = false) : L.assignments.countP (activeAt k) = 0 := by
  unfold hasActive at h
  rw [List.countP_eq_zero]
  exact List.any_eq_false.mp h

theorem tryAssign_taken {L : Ledger} {k : Key} (kind : Kind) (ps : Nat)
    (holder : Option Nat) (cap : Nat) (h : hasActive L k = true) :
    tryAssign L k kind ps holder cap = .error .SlotTaken := by
  simp [tryAssign, h]

theorem tryAssign_free {L : Ledger} {k : Key} {ps cap : Nat} (kind : Kind)
    (holder : Option Nat) (hfree : hasActive L k = false) (hcap : ps ≤ cap) :
    tryAssign L k kind ps holder cap =
      .ok (⟨⟨L.nextId, k, kind, ps, holder, AStatus.Active⟩ :: L.assignments,
        L.nextId + 1⟩, ⟨L.nextId, k, kind, ps, holder, AStatus.Active⟩) := by
  simp [tryAssign, hfree, Nat.not_lt.mpr hcap]

theorem hasActive_insert_self (l : List Assignment) (n m : Nat) (k : Key)
    (kind : Kind) (ps : Nat) (holder : Option Nat) :
    hasActive ⟨⟨n, k, kind, ps, holder, AStatus.Active⟩ :: l, m⟩ k = true := by
  simp [hasActive, activeAt]

theorem exclusive_insert {L : Ledger} {k : Key} (hfree : hasActive L k = false)
    (hInv : ExclusiveActive L) (n m : Nat) (kind : Kind) (ps : Nat)
    (holder : Option Nat) :
    ExclusiveActive ⟨⟨n, k, kind, ps, holder, AStatus.Active⟩ :: L.assignments, m⟩ := by
  intro k2
  show List.countP (activeAt k2)
    (⟨n, k, kind, ps, holder, AStatus.Active⟩ :: L.assignments) ≤ 1
  rw [List.countP_cons]
  by_cases hk : k2 = k
  · subst hk
    have h0 := countP_activeAt_eq_zero hfree
    simp [h0, activeAt]
  · have hhead : activeAt k2 ⟨n, k, kind, ps, holder, AStatus.Active⟩ = false := by
      simp only [activeAt, decide_eq_false_iff_not]
      rintro ⟨hkey, -⟩
      exact hk hkey.symm
    simpa [hhead] using hInv k2

theorem activeAt_cancelFlip {k : Key} {aid : Nat} {b : Assignment}
    (h : activeAt k (cancelFlip aid b) = true) : activeAt k b = true := by
  unfold cancelFlip at h
  by_cases hb : b.id = aid
  · simp [hb, activeAt] at h
  · simpa [hb] using h

theorem exclusive_map_cancelFlip {L : Ledger} (hInv : ExclusiveActive L)
    (aid m : Nat) : ExclusiveActive ⟨L.assignments.map (cancelFlip aid), m⟩ := by
  intro k
  show List.countP (activeAt k) (L.assignments.map (cancelFlip aid)) ≤ 1
  rw [List.countP_map]
  exact le_trans
    (List.countP_mono_left (fun b _ h => activeAt_cancelFlip h)) (hInv k)

theorem exclusive_filter {L : Ledger} (hInv : ExclusiveActive L)
    (p : Assignment → Bool) (m : Nat) :
    ExclusiveActive ⟨L.assignments.filter p, m⟩ := by
  intro k
  exact le_trans
    (List.Sublist.countP_le (activeAt k) (List.filter_sublist L.assignments))
    (hInv k)

theorem exclusive_assignStep {L : Ledger} (hInv : ExclusiveActive L)
    (k : Key) (kind : Kind) (ps : Nat) (holder : Option Nat) (cap : Nat) :
    ExclusiveActive (assignStep L k kind ps holder cap) := by
  unfold assignStep
  by_cases h : hasActive L k = true
  · rw [tryAssign_taken kind ps holder cap h]
    exact hInv
  · have hf : hasActive L k = false := by simpa using h
    by_cases hc : cap < ps
    · have : tryAssign L k kind ps holder cap = .error .TableNotEligible := by
        simp [tryAssign, hf, hc]
      rw [this]
      exact hInv
    · rw [tryAssign_free kind holder hf (Nat.not_lt.mp hc)]
      exact exclusive_insert hf hInv _ _ kind ps holder

theorem exclusive_cancelStep {L : Ledger} (hInv : ExclusiveActive L)
    (aid requester restOwner : Nat) :
    ExclusiveActive (cancelStep L aid requester restOwner) := by
  unfold cancelStep cancel
  cases hf : L.assignments.find? (fun a => decide (a.id = aid)) with
  | none => exact hInv
  | some a =>
    by_cases h1 : a.status = AStatus.Cancelled
    · simp only [h1, if_true]
      exact hInv
    · by_cases h2 : requester = restOwner ∨ a.holder_ref = some requester
      · simp only [h1, if_false, h2, if_true]
        exact exclusive_map_cancelFlip hInv aid L.nextId
      · simp only [h1, h2, if_false]
        exact hInv

theorem exclusive_applyOp {s : Sys} (hInv : ExclusiveActive s.ledger)
    (op : Op) : ExclusiveActive (applyOp s op).ledger := by
  cases op with
  | assign k kind ps holder cap => exact exclusive_assignStep hInv k kind ps holder cap
  | docancel aid r o => exact exclusive_cancelStep hInv aid r o
  | addTbl rid number cap tid =>
    dsimp only [applyOp]
    cases addTable s.tables rid number cap tid with
    | ok ts => exact hInv
    | error e => exact hInv
  | editTbl tid number cap =>
    dsimp only [applyOp]
    cases updateTable s.tables tid number cap with
    | ok ts => exact hInv
    | error e => exact hInv
  | removeTbl tid today =>
    unfold applyOp removeTableStep removeTable
    by_cases h : hasBlockingHold s.ledger tid today = true
    · simp only [h, if_true]
      exact hInv
    · have hf : hasBlockingHold s.ledger tid today = false := by simpa using h
      simp only [hf, Bool.false_eq_true, if_false]
      exact exclusive_filter hInv _ _
  | addSlot sid rid date startT openT closeT dur =>
    dsimp only [applyOp]
    cases createSlot s.slots sid rid date startT openT closeT dur with
    | ok ss => exact hInv
    | error e => exact hInv
  | deactivate sid => exact hInv
  | removeSlt sid =>
    unfold applyOp removeSlot
    by_cases h : s.ledger.assignments.any (fun a =>
        decide (a.key.time_slot_id = sid ∧ ¬a.status = AStatus.Cancelled)) = true
    · simp only [h, if_true]
      exact hInv
    · have hf : s.ledger.assignments.any (fun a =>
          decide (a.key.time_slot_id = sid ∧ ¬a.status = AStatus.Cancelled)) = false := by
        simpa using h
      simp only [hf, Bool.false_eq_true, if_false]
      exact exclusive_filter hInv _ _

theorem exclusive_runOps {s : Sys} (hInv : ExclusiveActive s.ledger) :
    ∀ ops : List Op, ExclusiveActive (runOps s ops).ledger := by
  intro ops
  induction ops generalizing s with
  | nil => exact hInv
  | cons op rest ih => exact ih (exclusive_applyOp hInv op)

theorem exclusive_sys0 : ExclusiveActive sys0.ledger := by
  intro k
  simp [sys0]

theorem runAssigns_taken {cap : Nat} {k : Key} {L : Ledger}
    (h : hasActive L k = true) (rs : List AssignReq) :
    runAssigns cap k L rs = (L, rs.map (fun _ => .error .SlotTaken)) := by
  induction rs with
  | nil => rfl
  | cons r rs ih =>
    rw [runAssigns, tryAssign_taken r.kind r.ps r.holder cap h]
    simp [ih]

theorem runAssigns_free {cap : Nat} {k : Key} {L : Ledger} {r : AssignReq}
    (hfree : hasActive L k = false) (hcap : r.ps ≤ cap) (rs : List AssignReq) :
    runAssigns cap k L (r :: rs) =
      (⟨⟨L.nextId, k, r.kind, r.ps, r.holder, AStatus.Active⟩ :: L.assignments,
          L.nextId + 1⟩,
        .ok ⟨L.nextId, k, r.kind, r.ps, r.holder, AStatus.Active⟩ ::
          rs.map (fun _ => .error .SlotTaken)) := by
  rw [runAssigns, tryAssign_free r.kind r.holder hfree hcap]
  have h2 := hasActive_insert_self L.assignments L.nextId (L.nextId + 1) k
    r.kind r.ps r.holder
  simp [runAssigns_taken h2 rs]

theorem cancelFlip_id (aid : Nat) (b : Assignment) :
    (cancelFlip aid b).id = b.id := by
  unfold cancelFlip
  split <;> rfl

theorem find?_map_cancelFlip {l : List Assignment} {aid : Nat} {a : Assignment}
    (h : l.find? (fun b => decide (b.id = aid)) = some a) :
    (l.map (cancelFlip aid)).find? (fun b => decide (b.id = aid))
      = some (cancelFlip aid a) := by
  induction l with
  | nil => simp at h
  | cons b bs ih =>
    rw [List.map_cons]
    by_cases hb : b.id = aid
    · rw [List.find?_cons_of_pos bs (by simpa using hb)] at h
      rw [List.find?_cons_of_pos (List.map (cancelFlip aid) bs)
        (by simpa [cancelFlip_id] using hb)]
      cases h
      rfl
    · rw [List.find?_cons_of_neg bs (by simpa using hb)] at h
      rw [List.find?_cons_of_neg (List.map (cancelFlip aid) bs)
        (by simpa [cancelFlip_id] using hb)]
      exact ih h

theorem status_active_of_not_cancelled {s : AStatus}
    (h : ¬s = AStatus.Cancelled) : s = AStatus.Active := by
  cases s
  · rfl
  · exact absurd rfl h

theorem cancel_ok_of_active {L : Ledger} {aid requester restOwner : Nat}
    {a : Assignment}
    (hf : L.assignments.find? (fun b => decide (b.id = aid)) = some a)
    (hst : a.status = AStatus.Active)
    (hauth : requester = restOwner ∨ a.holder_ref = some requester) :
    cancel L aid requester restOwner =
      .ok ⟨L.assignments.map (cancelFlip aid), L.nextId⟩ := by
  unfold cancel
  rw [hf]
  simp [hst, hauth]

theorem cancel_already {L : Ledger} {aid : Nat} {a : Assignment}
    (hf : L.assignments.find? (fun b => decide (b.id = aid)) = some a)
    (hst : a.status = AStatus.Cancelled) (requester restOwner : Nat) :
    cancel L aid requester restOwner = .error .AlreadyCancelled := by
  unfold cancel
  rw [hf]
  simp [hst]

theorem cancel_unauthorized {L : Ledger} {aid requester restOwner : Nat}
    {a : Assignment}
    (hf : L.assignments.find? (fun b => decide (b.id = aid)) = some a)
    (hst : a.status = AStatus.Active)
    (h1 : ¬requester = restOwner) (h2 : ¬a.holder_ref = some requester) :
    cancel L aid requester restOwner = .error .NotAuthorized := by
  unfold cancel
  rw [hf]
  simp [hst, h1, h2]

theorem cancel_ok_inv {L L2 : Ledger} {aid requester restOwner : Nat}
    (h : cancel L aid requester restOwner = .ok L2) :
    L2 = ⟨L.assignments.map (cancelFlip aid), L.nextId⟩ ∧
      ∃ a, L.assignments.find? (fun b => decide (b.id = aid)) = some a ∧
        a.status = AStatus.Active ∧
        (requester = restOwner ∨ a.holder_ref = some requester) := by
  unfold cancel at h
  cases hf : L.assignments.find? (fun b => decide (b.id = aid)) with
  | none =>
    rw [hf] at h
    exact absurd h (by simp)
  | some a =>
    rw [hf] at h
    by_cases h1 : a.status = AStatus.Cancelled
    · simp [h1] at h
    · by_cases h2 : requester = restOwner ∨ a.holder_ref = some requester
      · simp only [h1, if_false, h2, if_true] at h
        cases h
        exact ⟨rfl, a, rfl, status_active_of_not_cancelled h1, h2⟩
      · simp [h1, h2] at h

theorem cancel_then_cancel {L L2 : Ledger} {aid requester restOwner : Nat}
    (h : cancel L aid requester restOwner = .ok L2) (r2 o2 : Nat) :
    cancel L2 aid r2 o2 = .error .AlreadyCancelled := by
  obtain ⟨hL2, a, hf, hst, hauth⟩ := cancel_ok_inv h
  subst hL2
  have haid : a.id = aid := by simpa using List.find?_some hf
  exact cancel_already (find?_map_cancelFlip hf) (by simp [cancelFlip, haid]) r2 o2

theorem hasActive_after_cancel {l : List Assignment} {k : Key} {aid : Nat}
    (m : Nat) (h : ∀ b ∈ l, activeAt k b = true → b.id = aid) :
    hasActive ⟨l.map (cancelFlip aid), m⟩ k = false := by
  unfold hasActive
  rw [List.any_eq_false]
  intro x hx
  rw [List.mem_map] at hx
  obtain ⟨b, hb, rfl⟩ := hx
  intro hact
  by_cases hid : b.id = aid
  · simp [cancelFlip, hid, activeAt] at hact
  · exact hid (h b hb (activeAt_cancelFlip hact))

/-- C1: in every state reachable from the empty system by any sequence of
operations (tryAssign with either kind, cancel, slot/table management), every
`(table_id, time_slot_id, date)` key has at most one non-cancelled
Assignment; and `tryAssign` on a key that already has an Active Assignment
fails with `SlotTaken` and creates nothing (the ledger is unchanged). -/
theorem claim1_exclusivity_invariant :
    (∀ ops : List Op, ExclusiveActive (runOps sys0 ops).ledger)
  ∧ (∀ (L : Ledger) (k : Key) (kind : Kind) (ps : Nat) (holder : Option Nat)
      (cap : Nat), hasActive L k = true →
        tryAssign L k kind ps holder cap = .error .SlotTaken
      ∧ assignStep L k kind ps holder cap = L) := by
  constructor
  · exact fun ops => exclusive_runOps exclusive_sys0 ops
  · intro L k kind ps holder cap h
    refine ⟨tryAssign_taken kind ps holder cap h, ?_⟩
    unfold assignStep
    rw [tryAssign_taken kind ps holder cap h]

/-- Witness for C1 at concrete inputs: a two-operation run from the empty
system, and a concrete one-row ledger on which a second `tryAssign` for the
held key fails with `SlotTaken` and changes nothing. -/
theorem claim1_exclusivity_invariant_witness :
    ExclusiveActive (runOps sys0
      [Op.assign ⟨1, 1, 0⟩ Kind.Booking 2 (some 7) 4,
       Op.assign ⟨1, 1, 0⟩ Kind.AdminReserve 2 none 4]).ledger
  ∧ tryAssign ⟨[⟨0, ⟨1, 1, 0⟩, Kind.Booking, 2, some 7, AStatus.Active⟩], 1⟩
      ⟨1, 1, 0⟩ Kind.AdminReserve 3 none 4 = .error .SlotTaken
  ∧ assignStep ⟨[⟨0, ⟨1, 1, 0⟩, Kind.Booking, 2, some 7, AStatus.Active⟩], 1⟩
      ⟨1, 1, 0⟩ Kind.AdminReserve 3 none 4
      = ⟨[⟨0, ⟨1, 1, 0⟩, Kind.Booking, 2, some 7, AStatus.Active⟩], 1⟩ :=
  ⟨claim1_exclusivity_invariant.1 _,
   (claim1_exclusivity_invariant.2 _ _ _ _ _ _ (by decide)).1,
   (claim1_exclusivity_invariant.2 _ _ _ _ _ _ (by decide)).2⟩

/-- C2: for a key that is initially free, a burst of N tryAssign calls
(N ≥ 2, any mix of Booking and AdminReserve kinds, each with an adequate
party size), applied in whatever total commit order the durable store
serialises them into, yields exactly one success and N−1 failures, every
failure is `SlotTaken`, and the final ledger holds exactly one Active
assignment for the key — never two and never a lost update. -/
theorem claim2_one_winner :
    ∀ (L : Ledger) (k : Key) (cap : Nat) (reqs : List AssignReq),
      hasActive L k = false → (∀ r ∈ reqs, r.ps ≤ cap) → 2 ≤ reqs.length →
      (runAssigns cap k L reqs).2.countP isOkE = 1
    ∧ (runAssigns cap k L reqs).2.countP (fun x => !isOkE x) = reqs.length - 1
    ∧ (∀ x ∈ (runAssigns cap k L reqs).2, isOkE x = false →
        x = .error .SlotTaken)
    ∧ (runAssigns cap k L reqs).1.assignments.countP (activeAt k) = 1 := by
  intro L k cap reqs hfree hcap hN
  cases reqs with
  | nil => simp at hN
  | cons r rs =>
    rw [runAssigns_free hfree (hcap r (by simp)) rs]
    refine ⟨?_, ?_, ?_, ?_⟩
    · rw [List.countP_cons]
      have h0 : List.countP isOkE (rs.map fun _ =>
          (.error .SlotTaken : Except LErr Assignment)) = 0 := by
        rw [List.countP_eq_zero]
        intro x hx
        rw [List.mem_map] at hx
        obtain ⟨y, hy, rfl⟩ := hx
        simp [isOkE]
      simp [h0, isOkE]
    · rw [List.countP_cons]
      have h0 : List.countP (fun x => !isOkE x) (rs.map fun _ =>
          (.error .SlotTaken : Except LErr Assignment)) =
          (rs.map fun _ => (.error .SlotTaken : Except LErr Assignment)).length := by
        rw [List.countP_eq_length]
        intro x hx
        rw [List.mem_map] at hx
        obtain ⟨y, hy, rfl⟩ := hx
        simp [isOkE]
      rw [h0, List.length_map]
      simp [isOkE]
    · intro x hx hfail
      rcases List.mem_cons.mp hx with h | h
      · subst h
        simp [isOkE] at hfail
      · rw [List.mem_map] at h
        obtain ⟨y, hy, rfl⟩ := h
        rfl
    · show List.countP (activeAt k)
        (⟨L.nextId, k, r.kind, r.ps, r.holder, AStatus.Active⟩ :: L.assignments) = 1
      rw [List.countP_cons]
      simp [activeAt, countP_activeAt_eq_zero hfree]

/-- Witness for C2 at concrete inputs: an empty ledger and three racing
requests of mixed kinds. -/
theorem claim2_one_winner_witness :
    (runAssigns 4 ⟨1, 1, 0⟩ ⟨[], 0⟩
      [⟨Kind.Booking, 2, some 7⟩, ⟨Kind.AdminReserve, 2, none⟩,
       ⟨Kind.Booking, 3, some 8⟩]).2.countP isOkE = 1
  ∧ (runAssigns 4 ⟨1, 1, 0⟩ ⟨[], 0⟩
      [⟨Kind.Booking, 2, some 7⟩, ⟨Kind.AdminReserve, 2, none⟩,
       ⟨Kind.Booking, 3, some 8⟩]).2.countP (fun x => !isOkE x) = 2
  ∧ (∀ x ∈ (runAssigns 4 ⟨1, 1, 0⟩ ⟨[], 0⟩
      [⟨Kind.Booking, 2, some 7⟩, ⟨Kind.AdminReserve, 2, none⟩,
       ⟨Kind.Booking, 3, some 8⟩]).2, isOkE x = false → x = .error .SlotTaken)
  ∧ (runAssigns 4 ⟨1, 1, 0⟩ ⟨[], 0⟩
      [⟨Kind.Booking, 2, some 7⟩, ⟨Kind.AdminReserve, 2, none⟩,
       ⟨Kind.Booking, 3, some 8⟩]).1.assignments.countP (activeAt ⟨1, 1, 0⟩) = 1 :=
  claim2_one_winner ⟨[], 0⟩ ⟨1, 1, 0⟩ 4
    [⟨Kind.Booking, 2, some 7⟩, ⟨Kind.AdminReserve, 2, none⟩,
     ⟨Kind.Booking, 3, some 8⟩] (by decide) (by decide) (by decide)

/-- C3: cancellation reopens the key — after a successful `tryAssign` on a
free key and a cancellation by the holder (or the owner), a second
`tryAssign` on the same key succeeds, the new Assignment has a different id,
and the old Assignment remains in the ledger in the Cancelled state (nothing
is hard-deleted: the row count only grows). -/
theorem claim3_cancellation_reopens :
    ∀ (L : Ledger) (k : Key) (ps cap holder restOwner : Nat),
      ps ≤ cap → hasActive L k = false →
      ∃ L1 a1 L2 L3 a2,
        tryAssign L k .Booking ps (some holder) cap = .ok (L1, a1) ∧
        cancel L1 a1.id holder restOwner = .ok L2 ∧
        tryAssign L2 k .Booking ps (some holder) cap = .ok (L3, a2) ∧
        ¬a2.id = a1.id ∧
        { a1 with status := AStatus.Cancelled } ∈ L3.assignments ∧
        L3.assignments.length = L.assignments.length + 2 := by
  intro L k ps cap holder restOwner hcap hfree
  have h1 := tryAssign_free (L := L) (k := k) .Booking (some holder) hfree hcap
  have hfind : (⟨L.nextId, k, .Booking, ps, some holder, AStatus.Active⟩ ::
      L.assignments).find? (fun b => decide (b.id = L.nextId)) =
      some ⟨L.nextId, k, .Booking, ps, some holder, AStatus.Active⟩ :=
    List.find?_cons_of_pos _ (by simp)
  have hc : cancel ⟨⟨L.nextId, k, .Booking, ps, some holder, AStatus.Active⟩ ::
      L.assignments, L.nextId + 1⟩ L.nextId holder restOwner = .ok
      ⟨(⟨L.nextId, k, .Booking, ps, some holder, AStatus.Active⟩ ::
        L.assignments).map (cancelFlip L.nextId), L.nextId + 1⟩ :=
    cancel_ok_of_active hfind rfl (Or.inr rfl)
  have hfree2 : hasActive ⟨(⟨L.nextId, k, .Booking, ps, some holder,
      AStatus.Active⟩ :: L.assignments).map (cancelFlip L.nextId),
      L.nextId + 1⟩ k = false := by
    apply hasActive_after_cancel
    intro b hb hact
    rcases List.mem_cons.mp hb with h | h
    · subst h
      rfl
    · exfalso
      unfold hasActive at hfree
      exact List.any_eq_false.mp hfree b h hact
  have h3 := tryAssign_free (L := ⟨(⟨L.nextId, k, .Booking, ps, some holder,
      AStatus.Active⟩ :: L.assignments).map (cancelFlip L.nextId),
      L.nextId + 1⟩) (k := k) .Booking (some holder) hfree2 hcap
  refine ⟨_, _, _, _, _, h1, hc, h3, ?_, ?_, ?_⟩
  · simp
  · rw [List.map_cons]
    refine List.mem_cons_of_mem _ ?_
    have hflip : cancelFlip L.nextId
        ⟨L.nextId, k, .Booking, ps, some holder, AStatus.Active⟩ =
        { (⟨L.nextId, k, .Booking, ps, some holder, AStatus.Active⟩ :
          Assignment) with status := AStatus.Cancelled } := by
      simp [cancelFlip]
    rw [hflip]
    exact List.mem_cons_self _ _
  · simp

/-- Witness for C3 at concrete inputs: empty ledger, a concrete key, party
size 2 at capacity 4, holder 7, owner 9. -/
theorem claim3_cancellation_reopens_witness :
    ∃ L1 a1 L2 L3 a2,
      tryAssign ⟨[], 0⟩ ⟨1, 1, 0⟩ .Booking 2 (some 7) 4 = .ok (L1, a1) ∧
      cancel L1 a1.id 7 9 = .ok L2 ∧
      tryAssign L2 ⟨1, 1, 0⟩ .Booking 2 (some 7) 4 = .ok (L3, a2) ∧
      ¬a2.id = a1.id ∧
      { a1 with status := AStatus.Cancelled } ∈ L3.assignments ∧
      L3.assignments.length = ([] : List Assignment).length + 2 :=
  claim3_cancellation_reopens ⟨[], 0⟩ ⟨1, 1, 0⟩ 2 4 7 9 (by decide) (by decide)

/-- C5: `cancel` succeeds iff the targeted assignment exists, is Active, and
the requester is its holder or the restaurant's owner; its only effect is
flipping that assignment's status to Cancelled (all other rows and the id
counter are untouched); an already-cancelled assignment always yields
`AlreadyCancelled` — in particular retrying a successful cancel yields
`AlreadyCancelled`, never a second success — and a requester who is neither
holder nor owner of an Active assignment gets `NotAuthorized`. -/
theorem claim5_cancel_semantics :
    ∀ (L : Ledger) (aid requester restOwner : Nat),
      ((∃ L2, cancel L aid requester restOwner = .ok L2) ↔
        (∃ a, L.assignments.find? (fun b => decide (b.id = aid)) = some a ∧
          a.status = AStatus.Active ∧
          (requester = restOwner ∨ a.holder_ref = some requester)))
    ∧ (∀ L2, cancel L aid requester restOwner = .ok L2 →
        L2 = ⟨L.assignments.map (cancelFlip aid), L.nextId⟩ ∧
        ∀ b ∈ L.assignments, ¬b.id = aid → b ∈ L2.assignments)
    ∧ (∀ a, L.assignments.find? (fun b => decide (b.id = aid)) = some a →
        a.status = AStatus.Cancelled →
        cancel L aid requester restOwner = .error .AlreadyCancelled)
    ∧ (∀ a, L.assignments.find? (fun b => decide (b.id = aid)) = some a →
        a.status = AStatus.Active → ¬requester = restOwner →
        ¬a.holder_ref = some requester →
        cancel L aid requester restOwner = .error .NotAuthorized)
    ∧ (∀ L2, cancel L aid requester restOwner = .ok L2 →
        ∀ r2 o2, cancel L2 aid r2 o2 = .error .AlreadyCancelled) := by
  intro L aid requester restOwner
  refine ⟨⟨?_, ?_⟩, ?_, ?_, ?_, ?_⟩
  · rintro ⟨L2, h⟩
    exact (cancel_ok_inv h).2
  · rintro ⟨a, hf, hst, hauth⟩
    exact ⟨_, cancel_ok_of_active hf hst hauth⟩
  · intro L2 h
    refine ⟨(cancel_ok_inv h).1, ?_⟩
    intro b hb hbid
    rw [(cancel_ok_inv h).1]
    show b ∈ L.assignments.map (cancelFlip aid)
    rw [List.mem_map]
    exact ⟨b, hb, by simp [cancelFlip, hbid]⟩
  · intro a hf hst
    exact cancel_already hf hst requester restOwner
  · intro a hf hst h1 h2
    exact cancel_unauthorized hf hst h1 h2
  · intro L2 h r2 o2
    exact cancel_then_cancel h r2 o2

/-- Witness for C5 at concrete inputs: a ledger holding one Active and one
Cancelled assignment; holder 7 cancels, stranger 8 is refused, and the
cancelled row refuses again. -/
theorem claim5_cancel_semantics_witness :
    cancel ⟨[⟨0, ⟨1, 1, 0⟩, Kind.Booking, 2, some 7, AStatus.Active⟩], 1⟩ 0 7 9
      = .ok ⟨[⟨0, ⟨1, 1, 0⟩, Kind.Booking, 2, some 7, AStatus.Cancelled⟩], 1⟩
  ∧ cancel ⟨[⟨0, ⟨1, 1, 0⟩, Kind.Booking, 2, some 7, AStatus.Active⟩], 1⟩ 0 8 9
      = .error .NotAuthorized
  ∧ cancel ⟨[⟨0, ⟨1, 1, 0⟩, Kind.Booking, 2, some 7, AStatus.Cancelled⟩], 1⟩ 0 7 9
      = .error .AlreadyCancelled := by
  refine ⟨?_, ?_, ?_⟩
  · have h := (claim5_cancel_semantics
      ⟨[⟨0, ⟨1, 1, 0⟩, Kind.Booking, 2, some 7, AStatus.Active⟩], 1⟩ 0 7 9).1.mpr
      ⟨⟨0, ⟨1, 1, 0⟩, Kind.Booking, 2, some 7, AStatus.Active⟩, by decide, rfl,
        Or.inr rfl⟩
    obtain ⟨L2, hL2⟩ := h
    have := ((claim5_cancel_semantics
      ⟨[⟨0, ⟨1, 1, 0⟩, Kind.Booking, 2, some 7, AStatus.Active⟩], 1⟩ 0 7 9).2.1
      L2 hL2).1
    rw [hL2, this]
    rfl
  · exact (claim5_cancel_semantics
      ⟨[⟨0, ⟨1, 1, 0⟩, Kind.Booking, 2, some 7, AStatus.Active⟩], 1⟩ 0 8 9).2.2.2.1
      ⟨0, ⟨1, 1, 0⟩, Kind.Booking, 2, some 7, AStatus.Active⟩ (by decide) rfl
      (by decide) (by decide)
  · exact (claim5_cancel_semantics
      ⟨[⟨0, ⟨1, 1, 0⟩, Kind.Booking, 2, some 7, AStatus.Cancelled⟩], 1⟩ 0 7 9).2.2.1
      ⟨0, ⟨1, 1, 0⟩, Kind.Booking, 2, some 7, AStatus.Cancelled⟩ (by decide) rfl

/-- C6: `tryAssign` with kind AdminReserve runs the identical atomic path as
with kind Booking, only with `holder_ref = none`: for an adequate party size
both succeed exactly when no Active Assignment holds the key, inserting the
same row up to the kind and holder fields, and both fail with `SlotTaken`
otherwise — an admin reserve gets no priority and never cancels or overrides
an existing Active booking (the ledger is left unchanged on failure). -/
theorem claim6_admin_reserve_same_path :
    ∀ (L : Ledger) (k : Key) (ps : Nat) (holder : Option Nat) (cap : Nat),
      ps ≤ cap →
      (hasActive L k = false →
        tryAssign L k .AdminReserve ps none cap =
          .ok (⟨⟨L.nextId, k, .AdminReserve, ps, none, AStatus.Active⟩ ::
            L.assignments, L.nextId + 1⟩,
            ⟨L.nextId, k, .AdminReserve, ps, none, AStatus.Active⟩)
      ∧ tryAssign L k .Booking ps holder cap =
          .ok (⟨⟨L.nextId, k, .Booking, ps, holder, AStatus.Active⟩ ::
            L.assignments, L.nextId + 1⟩,
            ⟨L.nextId, k, .Booking, ps, holder, AStatus.Active⟩))
    ∧ (hasActive L k = true →
        tryAssign L k .AdminReserve ps none cap = .error .SlotTaken
      ∧ tryAssign L k .Booking ps holder cap = .error .SlotTaken
      ∧ assignStep L k .AdminReserve ps none cap = L)
    ∧ ((tryAssign L k .AdminReserve ps none cap matches .ok _) ↔
        (tryAssign L k .Booking ps holder cap matches .ok _)) := by
  intro L k ps holder cap hcap
  refine ⟨?_, ?_, ?_⟩
  · intro hfree
    exact ⟨tryAssign_free .AdminReserve none hfree hcap,
      tryAssign_free .Booking holder hfree hcap⟩
  · intro htaken
    refine ⟨tryAssign_taken .AdminReserve ps none cap htaken,
      tryAssign_taken .Booking ps holder cap htaken, ?_⟩
    unfold assignStep
    rw [tryAssign_taken .AdminReserve ps none cap htaken]
  · cases hact : hasActive L k with
    | false =>
      rw [tryAssign_free .AdminReserve none hact hcap,
        tryAssign_free .Booking holder hact hcap]
    | true =>
      rw [tryAssign_taken .AdminReserve ps none cap hact,
        tryAssign_taken .Booking ps holder cap hact]

/-- Witness for C6 at concrete inputs: an empty ledger (both kinds succeed)
and a one-row ledger with an Active booking (the admin reserve fails with
`SlotTaken` and the booking is untouched). -/
theorem claim6_admin_reserve_same_path_witness :
    (tryAssign ⟨[], 0⟩ ⟨1, 1, 0⟩ .AdminReserve 2 none 4 =
      .ok (⟨[⟨0, ⟨1, 1, 0⟩, .AdminReserve, 2, none, AStatus.Active⟩], 1⟩,
        ⟨0, ⟨1, 1, 0⟩, .AdminReserve, 2, none, AStatus.Active⟩)
    ∧ tryAssign ⟨[], 0⟩ ⟨1, 1, 0⟩ .Booking 2 (some 7) 4 =
      .ok (⟨[⟨0, ⟨1, 1, 0⟩, .Booking, 2, some 7, AStatus.Active⟩], 1⟩,
        ⟨0, ⟨1, 1, 0⟩, .Booking, 2, some 7, AStatus.Active⟩))
  ∧ (tryAssign ⟨[⟨0, ⟨1, 1, 0⟩, Kind.Booking, 2, some 7, AStatus.Active⟩], 1⟩
      ⟨1, 1, 0⟩ .AdminReserve 2 none 4 = .error .SlotTaken
    ∧ assignStep ⟨[⟨0, ⟨1, 1, 0⟩, Kind.Booking, 2, some 7, AStatus.Active⟩], 1⟩
      ⟨1, 1, 0⟩ .AdminReserve 2 none 4
      = ⟨[⟨0, ⟨1, 1, 0⟩, Kind.Booking, 2, some 7, AStatus.Active⟩], 1⟩) := by
  refine ⟨?_, ?_, ?_⟩
  · exact (claim6_admin_reserve_same_path ⟨[], 0⟩ ⟨1, 1, 0⟩ 2 (some 7) 4
      (by decide)).1 (by decide)
  · exact ((claim6_admin_reserve_same_path
      ⟨[⟨0, ⟨1, 1, 0⟩, Kind.Booking, 2, some 7, AStatus.Active⟩], 1⟩ ⟨1, 1, 0⟩
      2 (some 7) 4 (by decide)).2.1 (by decide)).1
  · exact ((claim6_admin_reserve_same_path
      ⟨[⟨0, ⟨1, 1, 0⟩, Kind.Booking, 2, some 7, AStatus.Active⟩], 1⟩ ⟨1, 1, 0⟩
      2 (some 7) 4 (by decide)).2.1 (by decide)).2.2

/-- Tables of capacities 2, 4, 6, 8 in one restaurant, for the capacity
filter example of the spec. -/
def demoTables : List Table :=
  [⟨1, 1, 1, 2⟩, ⟨2, 1, 2, 4⟩, ⟨3, 1, 3, 6⟩, ⟨4, 1, 4, 8⟩]

/-- An empty ledger. -/
def emptyLedger : Ledger := ⟨[], 0⟩

/-- C4: `findAvailable` returns exactly the restaurant's tables with
capacity ≥ party_size that have no non-cancelled Assignment for
`(table, slot, date)`, sorted by ascending capacity then table_number; it
never returns a table with capacity < party_size; and on tables of
capacities {2, 4, 6, 8} with party_size 5 the result is the capacity-6 table
followed by the capacity-8 table. -/
theorem claim4_find_available :
    (∀ (tables : List Table) (L : Ledger) (rid slot : Nat) (date : Int)
      (ps : Nat),
      (∀ t : Table, t ∈ findAvailable tables L rid slot date ps ↔
        (t ∈ tables ∧ t.restaurant_id = rid ∧ ps ≤ t.capacity ∧
          hasActive L ⟨t.id, slot, date⟩ = false))
      ∧ List.Sorted availOrder (findAvailable tables L rid slot date ps)
      ∧ (∀ t ∈ findAvailable tables L rid slot date ps, ps ≤ t.capacity))
  ∧ findAvailable demoTables emptyLedger 1 1 0 5 =
      [⟨3, 1, 3, 6⟩, ⟨4, 1, 4, 8⟩] := by
  constructor
  · intro tables L rid slot date ps
    have hmem : ∀ t : Table, t ∈ findAvailable tables L rid slot date ps ↔
        (t ∈ tables ∧ t.restaurant_id = rid ∧ ps ≤ t.capacity ∧
          hasActive L ⟨t.id, slot, date⟩ = false) := by
      intro t
      unfold findAvailable
      rw [(List.perm_insertionSort availOrder _).mem_iff, List.mem_filter]
      simp [availPred, and_assoc]
    refine ⟨hmem, List.sorted_insertionSort availOrder _, ?_⟩
    intro t ht
    exact ((hmem t).mp ht).2.2.1
  · decide

/-- Witness for C4 at concrete inputs: membership of the capacity-6 table
in the demo result, obtained from the characterization, and the capacity
bound evaluated on it. -/
theorem claim4_find_available_witness :
    ((⟨3, 1, 3, 6⟩ : Table) ∈ findAvailable demoTables emptyLedger 1 1 0 5)
  ∧ 5 ≤ (⟨3, 1, 3, 6⟩ : Table).capacity := by
  have h := claim4_find_available.1 demoTables emptyLedger 1 1 0 5
  have hm : (⟨3, 1, 3, 6⟩ : Table) ∈ findAvailable demoTables emptyLedger 1 1 0 5 :=
    (h.1 ⟨3, 1, 3, 6⟩).mpr (by decide)
  exact ⟨hm, h.2.2 ⟨3, 1, 3, 6⟩ hm⟩

/-- A table record from the management page tied to time slot slot-A. -/
def mgmtTableA : MgmtTable := ⟨"tbl-1", "1", 4, "slot-A"⟩

/-- The same id, number and capacity, but tied to time slot slot-B. -/
def mgmtTableB : MgmtTable := ⟨"tbl-1", "1", 4, "slot-B"⟩

/-- C7: counterexample — the claim says a Table is
`{id, restaurant_id, table_number, capacity}` with no association to any
time slot, i.e. a table record would be determined by its id, number and
capacity.  The frontend's Table record (src/unnamed/part_005, lines 22-27)
carries a `time_slot_id` field and no `restaurant_id`: two records equal on
id, table_number and capacity but tied to different time slots are distinct
values. -/
theorem claim7_counterexample :
    mgmtTableA.id = mgmtTableB.id ∧
    mgmtTableA.table_number = mgmtTableB.table_number ∧
    mgmtTableA.capacity = mgmtTableB.capacity ∧
    ¬mgmtTableA = mgmtTableB := by
  refine ⟨rfl, rfl, rfl, ?_⟩
  decide

/-- C7 (amended): a Table as the frontend declares it is
`{id, table_number, capacity, time_slot_id}` — it carries the time slot it
is listed under and no restaurant_id field, and is fully determined by those
four fields; table_number uniqueness per restaurant is enforced by the
(spec-modelled) registry: `addTable` fails with `DuplicateTableNumber`
exactly when the number is already used in the restaurant. -/
theorem claim7_table_shape :
    (∀ t1 t2 : MgmtTable, t1.id = t2.id → t1.table_number = t2.table_number →
      t1.capacity = t2.capacity → t1.time_slot_id = t2.time_slot_id → t1 = t2)
  ∧ (∀ (tables : List Table) (rid number cap tid : Nat),
      addTable tables rid number cap tid = .error .DuplicateTableNumber ↔
        ∃ t ∈ tables, t.restaurant_id = rid ∧ t.table_number = number) := by
  constructor
  · intro t1 t2 h1 h2 h3 h4
    cases t1
    cases t2
    cases h1
    cases h2
    cases h3
    cases h4
    rfl
  · intro tables rid number cap tid
    constructor
    · intro he
      unfold addTable at he
      by_cases h : tables.any (fun t =>
          decide (t.restaurant_id = rid ∧ t.table_number = number)) = true
      · simpa [List.any_eq_true] using h
      · simp [h] at he
        exact he
    · intro hex
      unfold addTable
      have h : tables.any (fun t =>
          decide (t.restaurant_id = rid ∧ t.table_number = number)) = true := by
        rw [List.any_eq_true]
        obtain ⟨t, ht, h1, h2⟩ := hex
        exact ⟨t, ht, by simp [h1, h2]⟩
      simp [h]
      exact hex

/-- Witness for C7 (amended) at concrete inputs: the four-field
extensionality applied to a concrete record, and a concrete duplicate
rejection. -/
theorem claim7_table_shape_witness :
    mgmtTableA = mgmtTableA
  ∧ addTable [⟨1, 1, 1, 2⟩] 1 1 6 2 = .error .DuplicateTableNumber := by
  constructor
  · exact claim7_table_shape.1 mgmtTableA mgmtTableA rfl rfl rfl rfl
  · exact (claim7_table_shape.2 [⟨1, 1, 1, 2⟩] 1 1 6 2).mpr
      ⟨⟨1, 1, 1, 2⟩, by decide, rfl, rfl⟩

/-- C8: `removeTable` fails, and fails with `TableHasActiveHolds`, exactly
when some non-cancelled Assignment references the table for a
present-or-future date, leaving tables and assignments unchanged on failure;
when every non-cancelled assignment of the table lies strictly in the past,
removal succeeds. -/
theorem claim8_remove_table :
    ∀ (tables : List Table) (L : Ledger) (tid : Nat) (today : Int),
      (removeTable tables L tid today = .error .TableHasActiveHolds ↔
        ∃ a ∈ L.assignments, a.key.table_id = tid ∧
          ¬a.status = AStatus.Cancelled ∧ today ≤ a.key.date)
    ∧ (∀ e, removeTable tables L tid today = .error e →
        e = .TableHasActiveHolds)
    ∧ (hasBlockingHold L tid today = true →
        removeTableStep tables L tid today = (tables, L))
    ∧ ((∀ a ∈ L.assignments, a.key.table_id = tid →
          ¬a.status = AStatus.Cancelled → a.key.date < today) →
        ∃ p, removeTable tables L tid today = .ok p) := by
  intro tables L tid today
  refine ⟨⟨?_, ?_⟩, ?_, ?_, ?_⟩
  · intro he
    unfold removeTable at he
    by_cases h : hasBlockingHold L tid today = true
    · unfold hasBlockingHold at h
      simpa [List.any_eq_true] using h
    · simp [h] at he
  · intro hex
    have h : hasBlockingHold L tid today = true := by
      unfold hasBlockingHold
      rw [List.any_eq_true]
      obtain ⟨a, ha, h1, h2, h3⟩ := hex
      exact ⟨a, ha, by simp [h1, h2, h3]⟩
    unfold removeTable
    simp [h]
  · intro e he
    unfold removeTable at he
    by_cases h : hasBlockingHold L tid today = true
    · simp [h] at he
      exact he.symm
    · simp [h] at he
  · intro h
    unfold removeTableStep removeTable
    simp [h]
  · intro hpast
    have h : hasBlockingHold L tid today = false := by
      unfold hasBlockingHold
      rw [List.any_eq_false]
      intro a ha
      simp only [decide_eq_true_eq, not_and]
      intro h1 h2 h3
      exact absurd h3 (Int.not_le.mpr (hpast a ha h1 h2))
    unfold removeTable
    simp [h]

/-- Witness for C8 at concrete inputs: a future Active hold blocks removal
and leaves the state unchanged; a past (date −1 < today 0) Active hold does
not block. -/
theorem claim8_remove_table_witness :
    removeTable [⟨1, 1, 1, 2⟩] ⟨[⟨0, ⟨1, 1, 3⟩, Kind.Booking, 2, some 7,
        AStatus.Active⟩], 1⟩ 1 0 = .error .TableHasActiveHolds
  ∧ removeTableStep [⟨1, 1, 1, 2⟩] ⟨[⟨0, ⟨1, 1, 3⟩, Kind.Booking, 2, some 7,
        AStatus.Active⟩], 1⟩ 1 0
      = ([⟨1, 1, 1, 2⟩], ⟨[⟨0, ⟨1, 1, 3⟩, Kind.Booking, 2, some 7,
        AStatus.Active⟩], 1⟩)
  ∧ ∃ p, removeTable [⟨1, 1, 1, 2⟩] ⟨[⟨0, ⟨1, 1, -1⟩, Kind.Booking, 2, some 7,
        AStatus.Active⟩], 1⟩ 1 0 = .ok p := by
  refine ⟨?_, ?_, ?_⟩
  · exact (claim8_remove_table [⟨1, 1, 1, 2⟩] ⟨[⟨0, ⟨1, 1, 3⟩, Kind.Booking,
      2, some 7, AStatus.Active⟩], 1⟩ 1 0).1.mpr
      ⟨⟨0, ⟨1, 1, 3⟩, Kind.Booking, 2, some 7, AStatus.Active⟩, by decide,
        rfl, by decide, by decide⟩
  · exact (claim8_remove_table [⟨1, 1, 1, 2⟩] ⟨[⟨0, ⟨1, 1, 3⟩, Kind.Booking,
      2, some 7, AStatus.Active⟩], 1⟩ 1 0).2.2.1 (by decide)
  · exact (claim8_remove_table [⟨1, 1, 1, 2⟩] ⟨[⟨0, ⟨1, 1, -1⟩, Kind.Booking,
      2, some 7, AStatus.Active⟩], 1⟩ 1 0).2.2.2 (by decide)

/-- C9: the restaurant-details booking form accepts a guest count iff it is
between 1 and 20 inclusive; out-of-range values are rejected with the
schema's error message and the submit pipeline leaves the query-driving
state unchanged, so no availability query or booking request is issued with
an out-of-range guest count. -/
theorem claim9_booking_form_guests :
    ∀ f : BookingFormData,
      ((∃ d, bookingSchemaCheck f = .ok d) ↔ (1 ≤ f.guests ∧ f.guests ≤ 20))
    ∧ (f.guests < 1 →
        bookingSchemaCheck f = .error ("At least 1 guest required"))
    ∧ (20 < f.guests →
        bookingSchemaCheck f = .error ("Maximum 20 guests allowed"))
    ∧ (∀ st : BookingPageState, (f.guests < 1 ∨ 20 < f.guests) →
        submitBookingForm st f = st)
    ∧ (∀ st : BookingPageState, 1 ≤ st.guestCount → st.guestCount ≤ 20 →
        1 ≤ (submitBookingForm st f).guestCount ∧
          (submitBookingForm st f).guestCount ≤ 20) := by
  intro f
  refine ⟨⟨?_, ?_⟩, ?_, ?_, ?_, ?_⟩
  · rintro ⟨d, hd⟩
    unfold bookingSchemaCheck at hd
    by_cases h1 : f.guests < 1
    · simp [h1] at hd
    · by_cases h2 : 20 < f.guests
      · simp [h1, h2] at hd
      · omega
  · intro hr
    unfold bookingSchemaCheck
    simp [Int.not_lt.mpr hr.1, Int.not_lt.mpr hr.2]
  · intro h1
    unfold bookingSchemaCheck
    simp [h1]
  · intro h2
    unfold bookingSchemaCheck
    have h1 : ¬f.guests < 1 := by omega
    simp [h1, h2]
  · intro st hbad
    unfold submitBookingForm bookingSchemaCheck
    rcases hbad with h1 | h2
    · simp [h1]
    · have h1 : ¬f.guests < 1 := by omega
      simp [h1, h2]
  · intro st hlo hhi
    unfold submitBookingForm bookingSchemaCheck
    by_cases h1 : f.guests < 1
    · simp [h1]
      omega
    · by_cases h2 : 20 < f.guests
      · simp [h1, h2]
        omega
      · simp [h1, h2]
        omega

/-- Witness for C9 at concrete inputs: 25 guests are rejected with the max
message and do not change the state; 5 guests are accepted. -/
theorem claim9_booking_form_guests_witness :
    bookingSchemaCheck ⟨"2026-01-01", 25⟩ = .error ("Maximum 20 guests allowed")
  ∧ submitBookingForm ⟨"2026-01-01", 1⟩ ⟨"2026-01-01", 25⟩ = ⟨"2026-01-01", 1⟩
  ∧ (∃ d, bookingSchemaCheck ⟨"2026-01-01", 5⟩ = .ok d)
  ∧ bookingSchemaCheck ⟨"2026-01-01", 0⟩ = .error ("At least 1 guest required") := by
  refine ⟨?_, ?_, ?_, ?_⟩
  · exact (claim9_booking_form_guests ⟨"2026-01-01", 25⟩).2.2.1 (by decide)
  · exact (claim9_booking_form_guests ⟨"2026-01-01", 25⟩).2.2.2.1
      ⟨"2026-01-01", 1⟩ (Or.inr (by decide))
  · exact (claim9_booking_form_guests ⟨"2026-01-01", 5⟩).1.mpr
      ⟨by decide, by decide⟩
  · exact (claim9_booking_form_guests ⟨"2026-01-01", 0⟩).2.1 (by decide)

/-- C10: on an HTTP 401 whose request is not yet marked as retried, the
interceptor refreshes against the owner endpoint iff the original URL
contains "/owner" (else the user endpoint) and replays the original request
exactly once, with the retry marker set; if the refresh fails it clears the
stored auth for that role and propagates the original error; a request
already marked as retried — in particular a replayed request — is never
refreshed or replayed again, and a non-401 error passes through untouched. -/
theorem claim10_refresh_interceptor :
    ∀ (e : ApiError) (refreshOk : Bool),
      (e.status = some 401 → e.config.retryFlag = false → refreshOk = true →
        onResponseError e refreshOk =
          .replay { e.config with retryFlag := true }
            (if isOwnerRoute e.config then ("/auth/owner/refresh")
              else ("/auth/user/refresh")))
    ∧ (e.status = some 401 → e.config.retryFlag = false → refreshOk = false →
        onResponseError e refreshOk =
          .clearAndReject
            (if isOwnerRoute e.config then AuthRole.owner else AuthRole.user)
            (if isOwnerRoute e.config then ("/auth/owner/refresh")
              else ("/auth/user/refresh")) e)
    ∧ (e.config.retryFlag = true → onResponseError e refreshOk = .reject e)
    ∧ (¬e.status = some 401 → onResponseError e refreshOk = .reject e)
    ∧ (∀ u, e.config.url = some u →
        (isOwnerRoute e.config = true ↔ strContains u ("/owner") = true)) := by
  intro e refreshOk
  refine ⟨?_, ?_, ?_, ?_, ?_⟩
  · intro hs hr hok
    subst hok
    unfold onResponseError
    simp [hs, hr]
  · intro hs hr hok
    subst hok
    unfold onResponseError
    simp [hs, hr]
  · intro hr
    unfold onResponseError
    simp [hr]
  · intro hs
    unfold onResponseError
    simp [hs]
  · intro u hu
    unfold isOwnerRoute
    rw [hu]

/-- Witness for C10 at concrete inputs: a first 401 on an owner route with a
failing refresh clears the owner auth; a first 401 on a user route with a
succeeding refresh replays with the retry marker set; a 401 already marked
as retried passes through; a 404 passes through. -/
theorem claim10_refresh_interceptor_witness :
    onResponseError ⟨some 401, ⟨some ("/restaurants/owner/me"), false⟩⟩ false
      = .clearAndReject AuthRole.owner ("/auth/owner/refresh")
        ⟨some 401, ⟨some ("/restaurants/owner/me"), false⟩⟩
  ∧ onResponseError ⟨some 401, ⟨some ("/restaurants/123"), false⟩⟩ true
      = .replay ⟨some ("/restaurants/123"), true⟩ ("/auth/user/refresh")
  ∧ onResponseError ⟨some 401, ⟨some ("/restaurants/123"), true⟩⟩ true
      = .reject ⟨some 401, ⟨some ("/restaurants/123"), true⟩⟩
  ∧ onResponseError ⟨some 404, ⟨some ("/restaurants/123"), false⟩⟩ true
      = .reject ⟨some 404, ⟨some ("/restaurants/123"), false⟩⟩ := by
  refine ⟨?_, ?_, ?_, ?_⟩
  · have h := (claim10_refresh_interceptor
      ⟨some 401, ⟨some ("/restaurants/owner/me"), false⟩⟩ false).2.1 rfl rfl rfl
    rw [h]
    rfl
  · have h := (claim10_refresh_interceptor
      ⟨some 401, ⟨some ("/restaurants/123"), false⟩⟩ true).1 rfl rfl rfl
    rw [h]
    rfl
  · exact (claim10_refresh_interceptor
      ⟨some 401, ⟨some ("/restaurants/123"), true⟩⟩ true).2.2.1 rfl
  · exact (claim10_refresh_interceptor
      ⟨some 404, ⟨some ("/restaurants/123"), false⟩⟩ true).2.2.2.1 (by decide)
